import Mathlib

/-!
Verification of the Unified Scheduling Core of a Google Tasks / Google
Calendar VS Code extension.

The development shallowly embeds the relevant TypeScript source:

- date and time conversion utilities (DateTimeUtils.ts), with JavaScript
  Date values modelled as epoch minutes together with an explicit local
  timezone offset;
- the unified merger of tasks and calendar events (UnifiedDataMerger.ts),
  with the in-place JavaScript stable sort modelled by a stable insertion
  sort;
- the calendar panel message handler (CalendarWebViewProvider.ts) and the
  schedule panel message handler (ScheduleWebViewProvider.ts), modelled as
  pure functions from panel state and message to the new state plus the
  list of remote facade calls issued;
- the command-level clear-schedule flow (commands.ts);
- the webview click or double-click disambiguation machine.

JavaScript conventions used throughout: optional or nullable string fields
are `Option String`; a string option is truthy when it is present and not
empty; civil dates use the proleptic Gregorian calendar through the
standard days-from-civil and civil-from-days algorithms.
-/

namespace GTasks

/-! ## JavaScript value helpers -/

/-- Truthiness of an optional string: `undefined`, `null` and the empty
string are falsy, every other string is truthy. -/
def strTruthy : Option String → Bool
  | none => false
  | some s => s ≠ ""

/-- The JavaScript expression `a || dflt` for an optional string `a` and a
string default. -/
def truthyOr (a : Option String) (dflt : String) : String :=
  match a with
  | some s => if s = "" then dflt else s
  | none => dflt

/-- The JavaScript expression `a || undefined` for an optional string. -/
def truthyOpt : Option String → Option String
  | some s => if s = "" then none else some s
  | none => none

/-- Digits of a decimal numeral, most significant first, folded to a
natural number. -/
def digitsToNat (l : List Char) : Nat :=
  l.foldl (fun acc c => acc * 10 + (c.toNat - 48)) 0

/-- The JavaScript `parseInt(s, 10)`: skip spaces, admit an optional sign,
read the longest digit run; `none` models `NaN` when no digit is read. -/
def jsParseInt (l : List Char) : Option Int :=
  let l := l.dropWhile (· = ' ')
  match l with
  | '-' :: rest =>
    let ds := rest.takeWhile Char.isDigit
    if ds = [] then none else some (-(digitsToNat ds : Int))
  | '+' :: rest =>
    let ds := rest.takeWhile Char.isDigit
    if ds = [] then none else some (digitsToNat ds : Int)
  | _ =>
    let ds := l.takeWhile Char.isDigit
    if ds = [] then none else some (digitsToNat ds : Int)

/-- The JavaScript `String.prototype.split` with a one-character
separator, on the character list of the string. An empty input yields one
empty field, matching JavaScript. -/
def splitOnChar (sep : Char) : List Char → List (List Char)
  | [] => [[]]
  | c :: rest =>
    match splitOnChar sep rest with
    | [] => [[c]]
    | h :: t => if c = sep then [] :: h :: t else (c :: h) :: t

/-! ## Civil date arithmetic

Proleptic Gregorian conversions between a civil triple and a day count
from 1970-01-01, using the classic era decomposition. All divisions are
floor divisions so the formulas hold for every year. -/

/-- Day count from 1970-01-01 of the civil triple `(y, m, d)` with month
`1..12`; linear in `d`, so out-of-range day numbers normalise exactly the
way the JavaScript Date constructor does. -/
def daysFromCivil (y m d : Int) : Int :=
  let y2 := if m ≤ 2 then y - 1 else y
  let era := Int.fdiv y2 400
  let yoe := y2 - era * 400
  let mp := Int.emod (m + 9) 12
  let doy := Int.fdiv (153 * mp + 2) 5 + d - 1
  let doe := yoe * 365 + Int.fdiv yoe 4 - Int.fdiv yoe 100 + doy
  era * 146097 + doe - 719468

/-- A civil calendar triple. -/
structure CivilDate where
  year : Int
  month : Int
  day : Int
deriving DecidableEq, Repr

/-- Civil triple of a day count from 1970-01-01, the inverse of
`daysFromCivil` on valid triples. -/
def civilFromDays (z0 : Int) : CivilDate :=
  let z := z0 + 719468
  let era := Int.fdiv z 146097
  let doe := z - era * 146097
  let yoe := Int.fdiv (doe - Int.fdiv doe 1460 + Int.fdiv doe 36524 - Int.fdiv doe 146096) 365
  let y := yoe + era * 400
  let doy := doe - (365 * yoe + Int.fdiv yoe 4 - Int.fdiv yoe 100)
  let mp := Int.fdiv (5 * doy + 2) 153
  let d := doy - Int.fdiv (153 * mp + 2) 5 + 1
  let m := mp + (if mp < 10 then 3 else -9)
  ⟨if m ≤ 2 then y + 1 else y, m, d⟩

/-- The JavaScript `new Date(y, month0, d)` (local time constructor with a
zero-based month), as the day count of the local calendar day it denotes.
The constructor normalises arbitrary month and day numbers. -/
def jsMakeDay (y month0 d : Int) : Int :=
  daysFromCivil (y + Int.fdiv month0 12) (Int.emod month0 12 + 1) d

/-! ## Wire instant model (DateTimeUtils.ts and the all-day panel paths)

A JavaScript Date value is an absolute instant; it is modelled as epoch
minutes (an `Int`). The ambient local timezone enters as an explicit
offset `tz` in minutes with `local = utc + tz`. -/

/-- Minutes per day. -/
def minutesPerDay : Int := 1440

/-- The local calendar day (day count from 1970-01-01) containing the
instant `t` under the local offset `tz`. -/
def localDay (tz t : Int) : Int :=
  Int.fdiv (t + tz) minutesPerDay

/-- The wire instant of local midnight of calendar day `day` under the
local offset `tz`. -/
def localMidnightInstant (tz day : Int) : Int :=
  day * minutesPerDay - tz

/-- The wire instant of UTC midnight of calendar day `day`. -/
def utcMidnightInstant (day : Int) : Int :=
  day * minutesPerDay

/-- `DateTimeUtils.toRFC3339DateOnly`: copy the date, `setHours(0,0,0,0)`
in local time, and serialise with `toISOString`. Modelled as the instant
the produced RFC 3339 string denotes. -/
def toRFC3339DateOnly (tz t : Int) : Int :=
  Int.fdiv (t + tz) minutesPerDay * minutesPerDay - tz

/-- Parse a civil `YYYY-MM-DD` triple from a character list, the way the
panel code feeds user-picked dates into Date constructors. -/
def parseYMD (l : List Char) : Option CivilDate :=
  match splitOnChar '-' l with
  | [ys, ms, ds] =>
    match jsParseInt ys, jsParseInt ms, jsParseInt ds with
    | some y, some m, some d => some ⟨y, m, d⟩
    | _, _, _ => none
  | _ => none

/-- The instant denoted by `new Date(s)` for a string of the canonical
shape `YYYY-MM-DDT00:00:00.000Z`, i.e. UTC midnight of the named date;
`none` models an invalid date (whose `toISOString` throws). -/
def utcMidnightParse (s : String) : Option Int :=
  match parseYMD (s.data.takeWhile (· ≠ 'T')) with
  | some c => some (utcMidnightInstant (daysFromCivil c.year c.month c.day))
  | none => none

/-- `ScheduleWebViewProvider` schedule message handler: the due string is
built as `date + "T00:00:00.000Z"`. -/
def scheduleDueRFC3339 (date : String) : String :=
  date ++ "T00:00:00.000Z"

/-- `CalendarWebViewProvider.submitCreateTaskFromForm`, all-day branch:
the due instant is `new Date(date + "T00:00:00.000Z").toISOString()`. -/
def submitCreateTaskAllDayDue (date : String) : Option Int :=
  utcMidnightParse (date ++ "T00:00:00.000Z")

/-- Parse an `HH:MM` wall-clock time into minutes past local midnight. -/
def parseHM (l : List Char) : Option Int :=
  match splitOnChar ':' l with
  | [hs, ms] =>
    match jsParseInt hs, jsParseInt ms with
    | some h, some m => some (h * 60 + m)
    | _, _ => none
  | _ => none

/-- The instant denoted by `new Date(date + "T" + time + ":00")`, a local
wall-clock datetime literal, under the local offset `tz`. -/
def jsParseLocalDateTime (tz : Int) (date time : String) : Option Int :=
  match parseYMD date.data, parseHM time.data with
  | some c, some mins =>
    some (daysFromCivil c.year c.month c.day * minutesPerDay + mins - tz)
  | _, _ => none

/-! ## Relative due-date formatting (DateTimeUtils.formatDueDate) -/

/-- Short month names as produced by `toLocaleDateString` for the
`en-US` locale with a short month style. -/
def monthShort : Int → String
  | 1 => "Jan" | 2 => "Feb" | 3 => "Mar" | 4 => "Apr"
  | 5 => "May" | 6 => "Jun" | 7 => "Jul" | 8 => "Aug"
  | 9 => "Sep" | 10 => "Oct" | 11 => "Nov" | 12 => "Dec"
  | _ => ""

/-- The label `toLocaleDateString("en-US", month short, day numeric)` of
the local calendar day `day`, e.g. `Oct 25`. -/
def jsMonthDayLabel (day : Int) : String :=
  let c := civilFromDays day
  monthShort c.month ++ " " ++ toString c.day

/-- The ambient clock of `formatDueDate`: the triples returned by
`getFullYear`, `getMonth` (zero based) and `getDate` of `new Date()`. -/
structure JsToday where
  year : Int
  month0 : Int
  day : Int
deriving DecidableEq, Repr

/-- Ceiling division modelling `Math.ceil(a / b)` on an exact or inexact
integer ratio with `b > 0`. -/
def jsCeilDiv (a b : Int) : Int :=
  -(Int.fdiv (-a) b)

/-- Milliseconds per day, the divisor used by `formatDueDate`. -/
def msPerDay : Int := 1000 * 60 * 60 * 24

/-- The recurrence tail of the display label: `result += " [rec]"` when
the recurring argument is truthy. -/
def recurrenceSuffix : Option String → String
  | some r => if r = "" then "" else " [" ++ r ++ "]"
  | none => ""

/-- `DateTimeUtils.formatDueDate`: parse the date part of the due string,
compare to local today at midnight, and produce the display label. The
ambient `new Date()` is passed explicitly as `today`. An unparseable date
follows the JavaScript invalid-date path. -/
def formatDueDate (today : JsToday) (dueDateTime : Option String)
    (recurring : Option String) : String :=
  if strTruthy dueDateTime = false then "" else
  let s := dueDateTime.getD ""
  let dateStr := s.data.takeWhile (· ≠ 'T')
  let parts := splitOnChar '-' dateStr
  let year? := (parts.get? 0).bind jsParseInt
  let month? := ((parts.get? 1).bind jsParseInt).map (· - 1)
  let day? := (parts.get? 2).bind jsParseInt
  let recSuffix := recurrenceSuffix recurring
  match year?, month?, day? with
  | some y, some m0, some d =>
    let dueDay := jsMakeDay y m0 d
    let todayDay := jsMakeDay today.year today.month0 today.day
    if dueDay = todayDay then
      "📅 Today" ++ recSuffix
    else if dueDay = jsMakeDay today.year today.month0 (today.day + 1) then
      "📅 Tomorrow" ++ recSuffix
    else if dueDay = jsMakeDay today.year today.month0 (today.day - 1) then
      "📅 Yesterday" ++ recSuffix
    else
      let diffTime := (dueDay - todayDay) * msPerDay
      let daysFromNow := jsCeilDiv diffTime msPerDay
      let suffix :=
        if daysFromNow > 0 then " (" ++ toString daysFromNow ++ "d from now)"
        else if daysFromNow < 0 then " (" ++ toString daysFromNow.natAbs ++ "d ago)"
        else ""
      "📅 " ++ jsMonthDayLabel dueDay ++ suffix ++ recSuffix
  | _, _, _ =>
    "📅 Invalid Date" ++ recSuffix

/-! ## Unified data merger (UnifiedDataMerger.ts) -/

instance {ε α : Type} [DecidableEq ε] [DecidableEq α] : DecidableEq (Except ε α) :=
  fun x y =>
    match x, y with
    | Except.error a, Except.error b =>
      if h : a = b then Decidable.isTrue (by rw [h])
      else Decidable.isFalse (by simp [h])
    | Except.ok a, Except.ok b =>
      if h : a = b then Decidable.isTrue (by rw [h])
      else Decidable.isFalse (by simp [h])
    | Except.error _, Except.ok _ => Decidable.isFalse (by simp)
    | Except.ok _, Except.error _ => Decidable.isFalse (by simp)

/-- The `type` discriminator of a unified item. -/
inductive ItemType where
  | task
  | calendar
deriving DecidableEq, Repr

/-- A unified item as built by the merger. The nested `source` object is
flattened into its two optional fields. -/
structure UnifiedItem where
  id : String
  type : ItemType
  title : String
  dueDate : String
  dueDateTime : Option String := none
  description : Option String := none
  completed : Option Bool := none
  isAllDay : Option Bool := none
  recurring : Option String := none
  sourceTaskListId : Option String := none
  sourceCalendarId : Option String := none
deriving DecidableEq, Repr

/-- The fields of a `tasks_v1.Schema$Task` the merger reads. -/
structure SchemaTask where
  id : Option String := none
  title : Option String := none
  notes : Option String := none
  due : Option String := none
  status : Option String := none
deriving DecidableEq, Repr

/-- The `start` object of a calendar event. -/
structure EventStart where
  dateTime : Option String := none
  date : Option String := none
deriving DecidableEq, Repr

/-- The fields of a `CalendarEvent` the merger reads. The chain
`extendedProperties.private.isTask` is flattened to one optional field. -/
structure CalendarEvent where
  id : Option String := none
  summary : Option String := none
  description : Option String := none
  start : Option EventStart := none
  recurrence : Option (List String) := none
  extPropIsTask : Option String := none
deriving DecidableEq, Repr

/-- The regular expression test of a date-only string, matching exactly
four digits, a dash, two digits, a dash, two digits. -/
def isDateOnly (l : List Char) : Bool :=
  match l with
  | [a, b, c, d, e, f, g, h, i, j] =>
    a.isDigit && b.isDigit && c.isDigit && d.isDigit && e = '-' &&
      f.isDigit && g.isDigit && h = '-' && i.isDigit && j.isDigit
  | _ => false

/-- `extractDate`: a date-only string passes through; a string containing
`T` (an RFC 3339 instant) is cut at the `T`; anything else passes
through. -/
def extractDate (s : String) : String :=
  if isDateOnly s.data then s
  else if s.data.contains 'T' then ⟨s.data.takeWhile (· ≠ 'T')⟩
  else s

/-- Join a list of strings with a one-character separator, modelling
`Array.prototype.join(";")`. -/
def joinSemi : List String → String
  | [] => ""
  | [s] => s
  | s :: rest => s ++ ";" ++ joinSemi rest

/-- `calendarEventToUnified`: convert a calendar event; the missing-id
branch throws, modelled by `Except.error`. An event whose task tag equals
the string `true` is shown as a task and keeps the timed start. -/
def calendarEventToUnified (event : CalendarEvent)
    (calendarId : String := "primary") : Except String UnifiedItem :=
  let startDate :=
    truthyOr (event.start.bind (·.date))
      (truthyOr (event.start.bind (·.dateTime)) "")
  let dueDate := extractDate startDate
  match event.id with
  | none => Except.error "Calendar event must have an ID"
  | some i =>
    if i = "" then Except.error "Calendar event must have an ID"
    else
      let isTaskEvent := event.extPropIsTask = some "true"
      Except.ok
        { id := i
          type := if isTaskEvent then ItemType.task else ItemType.calendar
          title := truthyOr event.summary "(No title)"
          dueDate := dueDate
          dueDateTime := event.start.bind (·.dateTime)
          description := event.description
          isAllDay := some (strTruthy (event.start.bind (·.date)))
          recurring := event.recurrence.map joinSemi
          sourceCalendarId := some calendarId }

/-- `taskToUnified`: convert a task store entry. -/
def taskToUnified (task : SchemaTask) (taskListId : String) : UnifiedItem :=
  { id := task.id.getD ""
    type := ItemType.task
    title := truthyOr task.title "(No title)"
    dueDate := extractDate (truthyOr task.due "")
    description := truthyOpt task.notes
    completed := some (task.status = some "completed")
    recurring := none
    sourceTaskListId := some taskListId }

/-- The event guard of the merge loop: `event.id && event.summary &&
event.start`. -/
def eventGuard (e : CalendarEvent) : Bool :=
  strTruthy e.id && strTruthy e.summary && e.start.isSome

/-- Convert the guarded events in order, propagating the conversion
error the way an exception would escape `forEach`. -/
def convertEvents : List CalendarEvent → Except String (List UnifiedItem)
  | [] => Except.ok []
  | e :: rest =>
    if eventGuard e then
      match calendarEventToUnified e with
      | Except.error msg => Except.error msg
      | Except.ok u =>
        match convertEvents rest with
        | Except.error msg => Except.error msg
        | Except.ok us => Except.ok (u :: us)
    else convertEvents rest

/-- The pre-sort contents of the `unified` array: tasks with a truthy
title and a truthy due date, then the guarded calendar events. -/
def mergeBase (tasks : List (SchemaTask × String))
    (calendarEvents : List CalendarEvent) : Except String (List UnifiedItem) :=
  let fromTasks := tasks.filterMap (fun p =>
    if strTruthy p.1.title then
      if strTruthy p.1.due then some (taskToUnified p.1 p.2) else none
    else none)
  match convertEvents calendarEvents with
  | Except.error msg => Except.error msg
  | Except.ok fromEvents => Except.ok (fromTasks ++ fromEvents)

/-- Lexicographic comparison of character lists by code point, the order
`localeCompare` induces on ISO `YYYY-MM-DD` date strings. -/
def lexCompareChars : List Char → List Char → Ordering
  | [], [] => Ordering.eq
  | [], _ :: _ => Ordering.lt
  | _ :: _, [] => Ordering.gt
  | a :: as, b :: bs =>
    if a.toNat < b.toNat then Ordering.lt
    else if b.toNat < a.toNat then Ordering.gt
    else lexCompareChars as bs

/-- `String.prototype.localeCompare` on ISO date strings: negative, zero
or positive according to lexicographic code point order. -/
def localeCompare (a b : String) : Int :=
  match lexCompareChars a.data b.data with
  | Ordering.lt => -1
  | Ordering.eq => 0
  | Ordering.gt => 1

/-- The comparator passed to `unified.sort`: compare due dates with
`localeCompare`, then put tasks before calendar items on a date tie. -/
def cmpItems (a b : UnifiedItem) : Int :=
  let dateCompare : Int := localeCompare a.dueDate b.dueDate
  if dateCompare ≠ 0 then dateCompare
  else if a.type = ItemType.task ∧ b.type = ItemType.calendar then -1
  else if a.type = ItemType.calendar ∧ b.type = ItemType.task then 1
  else 0

/-- The sort order induced by the comparator: `a` may stay before `b`
exactly when the comparator does not demand the swap. `Array.prototype
.sort` is stable, so the sort is modelled by a stable insertion sort with
this order. -/
def itemLE (a b : UnifiedItem) : Prop :=
  cmpItems a b ≤ 0

instance : DecidableRel itemLE := fun a b =>
  inferInstanceAs (Decidable (cmpItems a b ≤ 0))

/-- `mergeItems`: build the unified array and sort it in place. -/
def mergeItems (tasks : List (SchemaTask × String))
    (calendarEvents : List CalendarEvent) : Except String (List UnifiedItem) :=
  match mergeBase tasks calendarEvents with
  | Except.error msg => Except.error msg
  | Except.ok unified => Except.ok (unified.insertionSort itemLE)

/-! ## Calendar panel message handling (CalendarWebViewProvider.ts)

The `onDidReceiveMessage` switch of the calendar panel is embedded as a
pure function from the panel instance fields and the inbound message to
the new fields plus the list of remote facade calls the handler issues.
The environment record carries the collaborators the handler reads: the
provider references, the task lists the service returns, the patch
success oracle, the confirmation dialog answer and the local timezone. -/

/-- One task list as returned by `tasklists.list`. -/
structure TaskList where
  id : Option String := none
  title : Option String := none
deriving DecidableEq, Repr

/-- The collaborators of the calendar panel handler. -/
structure PanelEnv where
  tz : Int := 0
  taskLists : List TaskList := []
  patchOk : String → String → Bool := fun _ _ => false
  hasCalendarProvider : Bool := true
  hasTaskProvider : Bool := true
  hasTaskService : Bool := true
  confirmDelete : Option String := none

/-- The remote facade calls the panel can issue. -/
inductive FacadeCall where
  | tasklistsList
  | tasksInsert (tasklist : Option String) (title : String) (due : Int)
  | tasksPatch (tasklist task : String)
  | calendarCreate (summary : String) (start : Int)
  | calendarUpdate (eventId : String) (summary : String) (start : Int)
  | calendarDelete (eventId : String)
deriving DecidableEq, Repr

/-- Whether a facade call mutates a remote store. -/
def isMutation : FacadeCall → Bool
  | FacadeCall.tasklistsList => false
  | _ => true

/-- The `formData` object of a `submitEventForm` message. -/
structure EventFormData where
  title : String
  date : String
  time : String
  isAllDay : Bool
deriving DecidableEq, Repr

/-- The instance fields of the panel touched by form submission. -/
structure PanelFields where
  eventFormMode : Option String := none
  editingEventId : Option String := none
  editingEventType : Option ItemType := none
  editingTaskListId : Option String := none
deriving DecidableEq, Repr

/-- The inbound panel messages relevant to form submission and
deletion. -/
inductive PanelMsg where
  | submitEventForm (mode : Option String) (eventId : Option String)
      (itemType : Option ItemType) (formData : Option EventFormData)
      (eventDataTaskListId : Option String)
  | deleteEvent (eventId : Option String)
deriving DecidableEq, Repr

/-- `submitCreateTaskFromForm`: guard on the task provider and the title,
encode the due instant (UTC midnight for all-day, a local wall-clock
parse otherwise; an invalid date throws inside the `try` and issues
nothing), list the task lists and insert into the first one. -/
def submitCreateTaskFromForm (env : PanelEnv) (fd : EventFormData) :
    List FacadeCall :=
  if env.hasTaskProvider = false ∨ fd.title = "" then [] else
  match (if fd.isAllDay then submitCreateTaskAllDayDue fd.date
         else jsParseLocalDateTime env.tz fd.date fd.time) with
  | none => []
  | some due =>
    if env.hasTaskService = false then [] else
    FacadeCall.tasklistsList ::
      (match env.taskLists with
       | [] => []
       | l0 :: _ => [FacadeCall.tasksInsert l0.id fd.title due])

/-- `submitCreateEvent`: guard, parse the local start time, create. -/
def submitCreateEvent (env : PanelEnv) (fd : EventFormData) :
    List FacadeCall :=
  if env.hasCalendarProvider = false ∨ fd.title = "" then [] else
  match jsParseLocalDateTime env.tz fd.date fd.time with
  | none => []
  | some startT => [FacadeCall.calendarCreate fd.title startT]

/-- `submitEditEvent`: guard, parse the local start time, update. -/
def submitEditEvent (env : PanelEnv) (eventId : String)
    (fd : EventFormData) : List FacadeCall :=
  if env.hasCalendarProvider = false ∨ fd.title = "" then [] else
  match jsParseLocalDateTime env.tz fd.date fd.time with
  | none => []
  | some startT => [FacadeCall.calendarUpdate eventId fd.title startT]

/-- The user-visible outcome of `submitEditTask`. -/
inductive EditOutcome where
  | updated
  | notFoundWarning
  | errorShown
  | skipped
deriving DecidableEq, Repr

/-- The fallback loop of `submitEditTask`: walk the task lists in order,
skip lists without a truthy id, patch each candidate and stop at the
first success; report not-found after the last list. -/
def scanTaskLists (patchOk : String → String → Bool) (taskId : String) :
    List TaskList → List FacadeCall × EditOutcome
  | [] => ([], EditOutcome.notFoundWarning)
  | l :: rest =>
    if strTruthy l.id then
      if patchOk (l.id.getD "") taskId then
        ([FacadeCall.tasksPatch (l.id.getD "") taskId], EditOutcome.updated)
      else
        let r := scanTaskLists patchOk taskId rest
        (FacadeCall.tasksPatch (l.id.getD "") taskId :: r.1, r.2)
    else scanTaskLists patchOk taskId rest

/-- The truthy list ids the fallback scan patches, in list order. -/
def truthyListIds (lists : List TaskList) : List String :=
  lists.filterMap (fun l => if strTruthy l.id then some (l.id.getD "") else none)

/-- `submitEditTask`: guard on provider, service and title; encode the
due date (UTC midnight; an invalid date throws into the outer catch);
try the supplied list id first and return on success; on any failure
list every task list and scan them linearly. -/
def submitEditTask (env : PanelEnv) (taskId : String) (fd : EventFormData)
    (taskListId : Option String) : List FacadeCall × EditOutcome :=
  if env.hasTaskProvider = false ∨ env.hasTaskService = false ∨ fd.title = "" then
    ([], EditOutcome.skipped)
  else
    match utcMidnightParse (fd.date ++ "T00:00:00.000Z") with
    | none => ([], EditOutcome.errorShown)
    | some _ =>
      let direct : List FacadeCall :=
        if strTruthy taskListId then
          [FacadeCall.tasksPatch (taskListId.getD "") taskId]
        else []
      if strTruthy taskListId ∧ env.patchOk (taskListId.getD "") taskId then
        (direct, EditOutcome.updated)
      else
        let scan := scanTaskLists env.patchOk taskId env.taskLists
        (direct ++ FacadeCall.tasklistsList :: scan.1, scan.2)

/-- `handleDeleteEvent`: confirm with a modal warning; only the exact
answer `Delete` reaches the facade delete; the instance fields are not
touched in either case. -/
def handleDeleteEvent (env : PanelEnv) (st : PanelFields) (eventId : String) :
    PanelFields × List FacadeCall :=
  if env.hasCalendarProvider = false then (st, [])
  else if env.confirmDelete = some "Delete" then
    (st, [FacadeCall.calendarDelete eventId])
  else (st, [])

/-- The `onDidReceiveMessage` switch, for the embedded message shapes.
The handler reads only the instance fields and the message: no field of
`PanelFields` records an in-flight submission, and the source consults no
such state before issuing the facade calls. -/
def handleMessage (env : PanelEnv) (st : PanelFields) (m : PanelMsg) :
    PanelFields × List FacadeCall :=
  match m with
  | PanelMsg.submitEventForm mode eventId itemType formData evTlid =>
    match formData with
    | none => (st, [])
    | some fd =>
      let it := itemType.getD ItemType.calendar
      let calls :=
        if mode = some "create" then
          if it = ItemType.task then submitCreateTaskFromForm env fd
          else submitCreateEvent env fd
        else if mode = some "edit" ∧ strTruthy eventId then
          if it = ItemType.task then
            (submitEditTask env (eventId.getD "") fd evTlid).1
          else submitEditEvent env (eventId.getD "") fd
        else []
      ({ st with eventFormMode := none, editingEventId := none,
                 editingEventType := none, editingTaskListId := none }, calls)
  | PanelMsg.deleteEvent eventId =>
    if strTruthy eventId then handleDeleteEvent env st (eventId.getD "")
    else (st, [])

/-- The event-loop view of one open panel: the instance fields, the
number of handler activations suspended at an awaited remote mutation,
and the log of facade calls issued so far. -/
structure PanelWorld where
  st : PanelFields := {}
  inFlight : Nat := 0
  log : List FacadeCall := []

/-- Deliver one message to the panel. The handler body runs as the
source writes it; delivery does not consult `inFlight`, because the
source keeps no such flag and rejects nothing. A handler that issued a
mutation is counted as suspended until its awaited call settles. -/
def arriveMessage (env : PanelEnv) (w : PanelWorld) (m : PanelMsg) :
    PanelWorld :=
  let r := handleMessage env w.st m
  { st := r.1
    inFlight := w.inFlight + (if r.2.any isMutation then 1 else 0)
    log := w.log ++ r.2 }

/-- One suspended handler resumes after its awaited mutation settles. -/
def settleMutation (w : PanelWorld) : PanelWorld :=
  { w with inFlight := w.inFlight - 1 }

/-! ## Clear-schedule command (commands.ts and ScheduleDialog.ts) -/

/-- `confirmClearSchedule`: the modal warning resolves to the pressed
button; only the exact answer `Clear` confirms. -/
def confirmClearSchedule (result : Option String) : Bool :=
  result = some "Clear"

/-- The `googleTasks.clearTaskSchedule` command: guard on the task id and
the presence of a schedule, then gate the patch behind the confirmation
result. -/
def clearTaskSchedule (task : SchemaTask) (taskListId : String)
    (confirmed : Bool) : List FacadeCall :=
  if strTruthy task.id = false then []
  else if strTruthy task.due = false then []
  else if confirmed = false then []
  else [FacadeCall.tasksPatch taskListId (task.id.getD "")]

/-! ## Click or double-click disambiguation (calendar webview script)

The webview installs, per calendar-day element, a click handler with a
per-element `lastClickTime` closure, a shared `dayClickTimeouts` map
keyed by the date attribute, and a dblclick handler. A click schedules
the selection toggle after `DOUBLE_CLICK_DELAY`; a click that follows a
recent click on the same element is ignored; the dblclick event of a
double press cancels the pending timer and opens the create form.
Pending timeouts are kept as (target, deadline) pairs in scheduling
order; all delays are equal, so scheduling order is deadline order. -/

/-- The abstract transitions the script performs. -/
inductive UiEvent where
  | selectDate (date : String)
  | clearSelection
  | requestCreate (date : String)
deriving DecidableEq, Repr

/-- The webview script state for day clicks. -/
structure ClickState where
  lastClick : String → Int
  pending : List (String × Int)
  selectedDate : Option String
  out : List UiEvent

/-- Fresh script state: every `lastClickTime` closure starts at 0 and no
timer is pending. -/
def initClickState : ClickState :=
  { lastClick := fun _ => 0, pending := [], selectedDate := none, out := [] }

/-- The debounce window of the script. -/
def DOUBLE_CLICK_DELAY : Int := 300

/-- `clearTimeout` plus map delete for one target. -/
def cancelPending (g : String) (p : List (String × Int)) :
    List (String × Int) :=
  p.filter (fun e => e.1 ≠ g)

/-- The body of the scheduled timeout: toggle the selection for the
captured date and delete the own map entry. -/
def fireTimerCallback (s : ClickState) (g : String) : ClickState :=
  let s2 :=
    if g ≠ "" then
      match s.selectedDate with
      | some d =>
        if d = g then
          { s with selectedDate := none, out := s.out ++ [UiEvent.clearSelection] }
        else
          { s with selectedDate := some g, out := s.out ++ [UiEvent.selectDate g] }
      | none =>
        { s with selectedDate := some g, out := s.out ++ [UiEvent.selectDate g] }
    else s
  { s2 with pending := cancelPending g s2.pending }

/-- The click handler: measure the time since the last click on this
element, record the click, ignore it when it is part of a double press,
otherwise cancel the pending timer for this target and schedule a new
one. -/
def clickHandler (s : ClickState) (g : String) (now : Int) : ClickState :=
  let delta := now - s.lastClick g
  let s2 := { s with lastClick := fun x => if x = g then now else s.lastClick x }
  if 0 < delta ∧ delta < DOUBLE_CLICK_DELAY then s2
  else { s2 with pending := cancelPending g s2.pending ++ [(g, now + DOUBLE_CLICK_DELAY)] }

/-- The dblclick handler: cancel the pending timer for this target and
open the create form. -/
def dblclickHandler (s : ClickState) (g : String) : ClickState :=
  let s2 := { s with pending := cancelPending g s.pending }
  if g ≠ "" then { s2 with out := s2.out ++ [UiEvent.requestCreate g] } else s2

/-- Run every pending timeout whose deadline has passed, in scheduling
order (equal to deadline order since all delays are equal). -/
def fireDue (s : ClickState) (now : Int) : ClickState :=
  (s.pending.filter (fun e => e.2 ≤ now)).foldl
    (fun acc e => fireTimerCallback acc e.1) s

/-- One physical press at time `now` on target `g`: due timers fire
first, the browser then delivers the click event, and additionally a
dblclick event when the previous press hit the same target within the
double-click interval. -/
def pressStep (acc : ClickState × Option (String × Int))
    (press : String × Int) : ClickState × Option (String × Int) :=
  let s0 := acc.1
  let g := press.1
  let now := press.2
  let s1 := fireDue s0 now
  let s2 := clickHandler s1 g now
  let s3 :=
    match acc.2 with
    | some p =>
      if p.1 = g ∧ now - p.2 < DOUBLE_CLICK_DELAY then dblclickHandler s2 g
      else s2
    | none => s2
  (s3, some (g, now))

/-- Let every remaining timeout fire. -/
def flushTimers (s : ClickState) : ClickState :=
  s.pending.foldl (fun acc e => fireTimerCallback acc e.1) s

/-- Process a press trace in order, then let remaining timers fire. -/
def runPresses (presses : List (String × Int)) : ClickState :=
  flushTimers (presses.foldl pressStep (initClickState, none)).1

/-- Tie-break rank of the comparator: tasks first. -/
def typeRank : ItemType → Nat
  | ItemType.task => 0
  | ItemType.calendar => 1

/-- The date order used by the comparator, as a relation on strings. -/
def dateLE (a b : String) : Prop :=
  localeCompare a b ≤ 0

/-! ## Order facts about the merge comparator -/

theorem charToNat_inj {a b : Char} (h : a.toNat = b.toNat) : a = b := by
  have hv : a.val = b.val := UInt32.ext h
  cases a; cases b; simp_all

theorem lexCompareChars_eq_iff : ∀ {l r : List Char},
    lexCompareChars l r = Ordering.eq ↔ l = r := by
  intro l
  induction l with
  | nil => intro r; cases r <;> simp [lexCompareChars]
  | cons a as ih =>
    intro r
    cases r with
    | nil => simp [lexCompareChars]
    | cons b bs =>
      by_cases h1 : a.toNat < b.toNat
      · simp [lexCompareChars, h1]
        intro h; subst h; omega
      · by_cases h2 : b.toNat < a.toNat
        · simp [lexCompareChars, h1, h2]
          intro h; subst h; omega
        · have hab : a = b := charToNat_inj (by omega)
          subst hab
          simp [lexCompareChars, h1, h2, ih]

theorem lexCompareChars_swap : ∀ (l r : List Char),
    lexCompareChars r l = (lexCompareChars l r).swap := by
  intro l
  induction l with
  | nil => intro r; cases r <;> simp [lexCompareChars, Ordering.swap]
  | cons a as ih =>
    intro r
    cases r with
    | nil => simp [lexCompareChars, Ordering.swap]
    | cons b bs =>
      by_cases h1 : a.toNat < b.toNat
      · have h2 : ¬ b.toNat < a.toNat := by omega
        simp [lexCompareChars, h1, h2, Ordering.swap]
      · by_cases h2 : b.toNat < a.toNat
        · simp [lexCompareChars, h1, h2, Ordering.swap]
        · simp [lexCompareChars, h1, h2, ih]

theorem lexCompareChars_lt_trans : ∀ {a b c : List Char},
    lexCompareChars a b = Ordering.lt → lexCompareChars b c = Ordering.lt →
      lexCompareChars a c = Ordering.lt := by
  intro a
  induction a with
  | nil =>
    intro b c hab hbc
    cases c with
    | nil =>
      cases b with
      | nil => simp [lexCompareChars] at hab
      | cons b bs => simp [lexCompareChars] at hbc
    | cons c cs => simp [lexCompareChars]
  | cons x xs ih =>
    intro b c hab hbc
    cases b with
    | nil => simp [lexCompareChars] at hab
    | cons y ys =>
      cases c with
      | nil => simp [lexCompareChars] at hbc
      | cons z zs =>
        simp only [lexCompareChars] at hab hbc ⊢
        by_cases hxy : x.toNat < y.toNat
        · by_cases hyz : y.toNat < z.toNat
          · simp [show x.toNat < z.toNat by omega]
          · by_cases hzy : z.toNat < y.toNat
            · simp [hyz, hzy] at hbc
            · have : y = z := charToNat_inj (by omega)
              subst this
              simp [hxy]
        · by_cases hyx : y.toNat < x.toNat
          · simp [hxy, hyx] at hab
          · have hxy2 : x = y := charToNat_inj (by omega)
            subst hxy2
            simp [hxy, hyx] at hab
            by_cases hyz : x.toNat < z.toNat
            · simp [hyz]
            · by_cases hzy : z.toNat < x.toNat
              · simp [hyz, hzy] at hbc
              · have : x = z := charToNat_inj (by omega)
                subst this
                simp only [hyz, if_false, hzy, ite_false] at hbc ⊢
                exact ih hab hbc

theorem stringData_inj {a b : String} (h : a.data = b.data) : a = b := by
  cases a; cases b; simp_all

theorem cmpItems_le_iff {a b : UnifiedItem} :
    cmpItems a b ≤ 0 ↔
      (lexCompareChars a.dueDate.data b.dueDate.data = Ordering.lt ∨
        (a.dueDate = b.dueDate ∧ typeRank a.type ≤ typeRank b.type)) := by
  unfold cmpItems localeCompare
  rcases h : lexCompareChars a.dueDate.data b.dueDate.data with _ | _ | _
  · simp
  · have hd : a.dueDate = b.dueDate := stringData_inj (lexCompareChars_eq_iff.mp h)
    cases ha : a.type <;> cases hb : b.type <;>
      simp [hd, ha, hb, typeRank]
  · have hd : ¬ a.dueDate = b.dueDate := by
      intro he
      rw [he] at h
      rw [lexCompareChars_eq_iff.mpr rfl] at h
      exact Ordering.noConfusion h
    simp [hd]

theorem cmpItems_eq_zero {a b : UnifiedItem}
    (hd : a.dueDate = b.dueDate) (ht : a.type = b.type) : cmpItems a b = 0 := by
  unfold cmpItems localeCompare
  have : lexCompareChars a.dueDate.data b.dueDate.data = Ordering.eq := by
    rw [hd]; exact lexCompareChars_eq_iff.mpr rfl
  rw [this]
  cases hb : b.type <;> rw [ht, hb] <;> simp

theorem itemLE_trans : ∀ a b c : UnifiedItem,
    itemLE a b → itemLE b c → itemLE a c := by
  intro a b c hab hbc
  unfold itemLE at *
  rw [cmpItems_le_iff] at *
  rcases hab with h1 | ⟨hd1, hr1⟩
  · rcases hbc with h2 | ⟨hd2, _⟩
    · exact Or.inl (lexCompareChars_lt_trans h1 h2)
    · left
      have : b.dueDate.data = c.dueDate.data := by rw [hd2]
      rw [← this]; exact h1
  · rcases hbc with h2 | ⟨hd2, hr2⟩
    · left
      have : a.dueDate.data = b.dueDate.data := by rw [hd1]
      rw [this]; exact h2
    · exact Or.inr ⟨hd1.trans hd2, le_trans hr1 hr2⟩

theorem itemLE_total : ∀ a b : UnifiedItem, itemLE a b ∨ itemLE b a := by
  intro a b
  unfold itemLE
  rw [cmpItems_le_iff, cmpItems_le_iff]
  rcases h : lexCompareChars a.dueDate.data b.dueDate.data with _ | _ | _
  · exact Or.inl (Or.inl rfl)
  · have hd : a.dueDate = b.dueDate := stringData_inj (lexCompareChars_eq_iff.mp h)
    rcases Nat.le_total (typeRank a.type) (typeRank b.type) with hr | hr
    · exact Or.inl (Or.inr ⟨hd, hr⟩)
    · exact Or.inr (Or.inr ⟨hd.symm, hr⟩)
  · have hs := lexCompareChars_swap a.dueDate.data b.dueDate.data
    rw [h] at hs
    exact Or.inr (Or.inl hs)

/-! ## Facts about event conversion and the merge pipeline -/

theorem calendarEventToUnified_ok {e : CalendarEvent} (h : strTruthy e.id = true) :
    ∃ u, calendarEventToUnified e = Except.ok u := by
  cases he : e.id with
  | none => rw [he] at h; simp [strTruthy] at h
  | some i =>
    rw [he] at h
    simp [strTruthy] at h
    cases hc : calendarEventToUnified e with
    | ok u => exact ⟨u, rfl⟩
    | error msg =>
      exfalso
      unfold calendarEventToUnified at hc
      rw [he] at hc
      simp [h] at hc

theorem convertEvents_ok (es : List CalendarEvent) :
    ∃ l, convertEvents es = Except.ok l := by
  induction es with
  | nil => exact ⟨[], rfl⟩
  | cons e rest ih =>
    obtain ⟨l, hl⟩ := ih
    by_cases hg : eventGuard e = true
    · have hid : strTruthy e.id = true := by
        unfold eventGuard at hg
        simp only [Bool.and_eq_true] at hg
        exact hg.1.1
      obtain ⟨u, hu⟩ := calendarEventToUnified_ok hid
      exact ⟨u :: l, by unfold convertEvents; rw [if_pos hg, hu, hl]⟩
    · exact ⟨l, by unfold convertEvents; rw [if_neg hg]; exact hl⟩

theorem convertEvents_mem {es : List CalendarEvent} {l : List UnifiedItem}
    (h : convertEvents es = Except.ok l) (u : UnifiedItem) :
    u ∈ l ↔ ∃ e, e ∈ es ∧ eventGuard e = true ∧ calendarEventToUnified e = Except.ok u := by
  induction es generalizing l with
  | nil =>
    unfold convertEvents at h
    cases h
    simp
  | cons e rest ih =>
    unfold convertEvents at h
    by_cases hg : eventGuard e = true
    · rw [if_pos hg] at h
      cases hu : calendarEventToUnified e with
      | error msg => rw [hu] at h; cases h
      | ok v =>
        rw [hu] at h
        cases hrest : convertEvents rest with
        | error msg => rw [hrest] at h; cases h
        | ok vs =>
          rw [hrest] at h
          cases h
          constructor
          · intro hm
            rcases List.mem_cons.mp hm with hm | hm
            · exact ⟨e, List.mem_cons_self .., hg, by rw [hu, hm]⟩
            · obtain ⟨e2, he2, hg2, hc2⟩ := (ih hrest).mp hm
              exact ⟨e2, List.mem_cons_of_mem _ he2, hg2, hc2⟩
          · rintro ⟨e2, he2, hg2, hc2⟩
            rcases List.mem_cons.mp he2 with he2 | he2
            · subst he2
              rw [hu] at hc2
              cases hc2
              exact List.mem_cons_self ..
            · exact List.mem_cons_of_mem _ ((ih hrest).mpr ⟨e2, he2, hg2, hc2⟩)
    · rw [if_neg hg] at h
      constructor
      · intro hm
        obtain ⟨e2, he2, hg2, hc2⟩ := (ih h).mp hm
        exact ⟨e2, List.mem_cons_of_mem _ he2, hg2, hc2⟩
      · rintro ⟨e2, he2, hg2, hc2⟩
        rcases List.mem_cons.mp he2 with he2 | he2
        · subst he2; exact absurd hg2 hg
        · exact (ih h).mpr ⟨e2, he2, hg2, hc2⟩

theorem mergeBase_ok (ts : List (SchemaTask × String)) (es : List CalendarEvent) :
    ∃ l, mergeBase ts es = Except.ok l := by
  obtain ⟨l, hl⟩ := convertEvents_ok es
  exact ⟨_, by unfold mergeBase; rw [hl]⟩

theorem mergeItems_eq {ts : List (SchemaTask × String)} {es : List CalendarEvent}
    {base : List UnifiedItem} (hb : mergeBase ts es = Except.ok base) :
    mergeItems ts es = Except.ok (base.insertionSort itemLE) := by
  unfold mergeItems; rw [hb]

/-! ## Claim theorems -/

/-- C1: the specification requires every all-day serialization path to
encode the picked calendar date at local midnight converted to the wire
instant, never at UTC midnight. The DateTimeUtils date-only converter
does exactly that (first conjunct, general in the instant and the
offset), but both panel form-submission paths build the literal UTC
midnight string: at the picked date 2025-10-20 (day 20381) the create
form due instant and the schedule handler due string are UTC midnight,
which differs from local midnight in every timezone not aligned with
UTC, for example five hours behind (offset -300). -/
theorem allDay_panel_paths_use_utc_midnight :
    (∀ tz t : Int, toRFC3339DateOnly tz t = localMidnightInstant tz (localDay tz t))
    ∧ submitCreateTaskAllDayDue "2025-10-20" = some (utcMidnightInstant 20381)
    ∧ scheduleDueRFC3339 "2025-10-20" = "2025-10-20T00:00:00.000Z"
    ∧ utcMidnightParse (scheduleDueRFC3339 "2025-10-20") =
        some (utcMidnightInstant 20381)
    ∧ utcMidnightInstant 20381 ≠ localMidnightInstant (-300) 20381 := by
  refine ⟨fun tz t => rfl, by decide, rfl, by decide, by decide⟩

/-- C6: a declined confirmation blocks the destructive mutation on both
delete flows: the panel event delete issues no facade call and leaves
the panel fields unchanged unless the modal answers exactly `Delete`,
and the clear-schedule command issues no patch unless the modal answers
exactly `Clear`. -/
theorem delete_decline_no_mutation :
    (∀ (env : PanelEnv) (st : PanelFields) (eventId : String),
      env.confirmDelete ≠ some "Delete" →
      handleDeleteEvent env st eventId = (st, []))
    ∧ ∀ (task : SchemaTask) (taskListId : String) (answer : Option String),
      confirmClearSchedule answer = false →
      clearTaskSchedule task taskListId (confirmClearSchedule answer) = [] := by
  constructor
  · intro env st eventId h
    unfold handleDeleteEvent
    rcases hc : env.hasCalendarProvider with _ | _
    · simp
    · simp [h]
  · intro task taskListId answer h
    rw [h]
    unfold clearTaskSchedule
    rcases h1 : strTruthy task.id with _ | _ <;> simp

/-- Closed instance of the declined-confirmation contract at a concrete
environment, panel state, task and dialog answer. -/
theorem delete_decline_no_mutation_check :
    handleDeleteEvent {} {} "e1" = ({}, [])
    ∧ clearTaskSchedule { id := some "t1", due := some "2025-10-20" } "l1"
        (confirmClearSchedule (some "Cancel")) = [] :=
  ⟨delete_decline_no_mutation.1 {} {} "e1" (by decide),
   delete_decline_no_mutation.2 { id := some "t1", due := some "2025-10-20" } "l1"
     (some "Cancel") (by decide)⟩

/-- C10: the merge is total. Every event reaching the conversion has
passed the guard requiring a truthy id, so the missing-id throw of the
conversion is unreachable and the merge never propagates an error. -/
theorem mergeItems_never_throws (ts : List (SchemaTask × String))
    (es : List CalendarEvent) :
    (∃ out, mergeItems ts es = Except.ok out)
    ∧ ∀ msg, mergeItems ts es ≠ Except.error msg := by
  obtain ⟨base, hb⟩ := mergeBase_ok ts es
  refine ⟨⟨_, mergeItems_eq hb⟩, ?_⟩
  intro msg hmsg
  rw [mergeItems_eq hb] at hmsg
  exact Except.noConfusion hmsg

/-- C8 counterexample: the claim includes every supplied task that has a
due date, but the merge loop also filters on a truthy title: a task with
a due date and no title is dropped, so the merge of that single task is
empty. -/
theorem mergeItems_drops_due_task_without_title :
    mergeItems [({ id := some "t1", due := some "2025-10-20" }, "lx")] []
      = Except.ok []
    ∧ strTruthy ({ id := some "t1", due := some "2025-10-20" } : SchemaTask).due
      = true := by
  exact ⟨by decide, by decide⟩

/-- C8 amended: the merge includes every supplied task that has a truthy
title and a truthy due date, and every output item arises either from
such a task or from an event passing the id, summary and start guard, so
a task without a due date and an event without a start never appear. -/
theorem mergeItems_membership_amended (ts : List (SchemaTask × String))
    (es : List CalendarEvent) (out : List UnifiedItem)
    (hout : mergeItems ts es = Except.ok out) :
    (∀ t lid, (t, lid) ∈ ts → strTruthy t.title = true → strTruthy t.due = true →
      taskToUnified t lid ∈ out)
    ∧ ∀ u ∈ out,
        (∃ t lid, (t, lid) ∈ ts ∧ strTruthy t.title = true ∧ strTruthy t.due = true ∧
          u = taskToUnified t lid)
        ∨ ∃ e ∈ es, eventGuard e = true ∧ calendarEventToUnified e = Except.ok u := by
  obtain ⟨evs, hevs⟩ := convertEvents_ok es
  have hbase : mergeBase ts es = Except.ok
      ((ts.filterMap (fun p =>
        if strTruthy p.1.title then
          if strTruthy p.1.due then some (taskToUnified p.1 p.2) else none
        else none)) ++ evs) := by
    unfold mergeBase
    rw [hevs]
  have hmi := mergeItems_eq hbase
  rw [hout] at hmi
  have hout2 := Except.ok.inj hmi
  have hmem : ∀ u : UnifiedItem, u ∈ out ↔
      u ∈ (ts.filterMap (fun p =>
        if strTruthy p.1.title then
          if strTruthy p.1.due then some (taskToUnified p.1 p.2) else none
        else none)) ++ evs := by
    intro u
    rw [hout2]
    exact (List.perm_insertionSort itemLE _).mem_iff
  constructor
  · intro t lid hmem2 htitle hdue
    rw [hmem]
    refine List.mem_append.mpr (Or.inl ?_)
    refine List.mem_filterMap.mpr ⟨(t, lid), hmem2, ?_⟩
    simp [htitle, hdue]
  · intro u hu
    rcases List.mem_append.mp ((hmem u).mp hu) with hl | hr
    · obtain ⟨p, hp, hfp⟩ := List.mem_filterMap.mp hl
      rcases ht : strTruthy p.1.title with _ | _
      · rw [ht] at hfp; simp at hfp
      · rcases hd : strTruthy p.1.due with _ | _
        · rw [ht, hd] at hfp; simp at hfp
        · rw [ht, hd] at hfp
          simp at hfp
          exact Or.inl ⟨p.1, p.2, hp, ht, hd, hfp.symm⟩
    · exact Or.inr ((convertEvents_mem hevs u).mp hr)

/-- Closed instance of the amended membership contract at a concrete
pair of input lists. -/
theorem mergeItems_membership_check :
    mergeItems
        [({ id := some "tA", title := some "A", due := some "2025-10-20" }, "l1")]
        [{ id := some "e1", summary := some "E",
           start := some { date := some "2025-10-19" } }]
      = Except.ok
          [{ id := "e1", type := ItemType.calendar, title := "E",
             dueDate := "2025-10-19", isAllDay := some true,
             sourceCalendarId := some "primary" },
           { id := "tA", type := ItemType.task, title := "A",
             dueDate := "2025-10-20", completed := some false,
             sourceTaskListId := some "l1" }]
    ∧ (∀ t lid,
        (t, lid) ∈ [(({ id := some "tA", title := some "A",
                        due := some "2025-10-20" } : SchemaTask), "l1")] →
        strTruthy t.title = true → strTruthy t.due = true →
        taskToUnified t lid ∈
          [{ id := "e1", type := ItemType.calendar, title := "E",
             dueDate := "2025-10-19", isAllDay := some true,
             sourceCalendarId := some "primary" },
           { id := "tA", type := ItemType.task, title := "A",
             dueDate := "2025-10-20", completed := some false,
             sourceTaskListId := some "l1" }]) :=
  by
  refine ⟨by decide, ?_⟩
  exact (mergeItems_membership_amended
      [({ id := some "tA", title := some "A", due := some "2025-10-20" }, "l1")]
      [{ id := some "e1", summary := some "E",
         start := some { date := some "2025-10-19" } }]
      [{ id := "e1", type := ItemType.calendar, title := "E",
         dueDate := "2025-10-19", isAllDay := some true,
         sourceCalendarId := some "primary" },
       { id := "tA", type := ItemType.task, title := "A",
         dueDate := "2025-10-20", completed := some false,
         sourceTaskListId := some "l1" }]
      (by decide)).1

/-- Evaluation of the event conversion at a truthy id. -/
theorem calendarEventToUnified_eq {e : CalendarEvent} {i : String}
    (he : e.id = some i) (hi : ¬ i = "") :
    calendarEventToUnified e = Except.ok
      { id := i
        type := if e.extPropIsTask = some "true" then ItemType.task
                else ItemType.calendar
        title := truthyOr e.summary "(No title)"
        dueDate := extractDate (truthyOr (e.start.bind (·.date))
          (truthyOr (e.start.bind (·.dateTime)) ""))
        dueDateTime := e.start.bind (·.dateTime)
        description := e.description
        isAllDay := some (strTruthy (e.start.bind (·.date)))
        recurring := e.recurrence.map joinSemi
        sourceCalendarId := some "primary" } := by
  unfold calendarEventToUnified
  rw [he]
  simp [hi]

/-- C3 counterexample: with the scenario records exactly as stated (the
task has no title field, the event has no summary field), the merge
yields zero items, not two: the task fails the truthy-title guard and
the event fails the truthy-summary guard. -/
theorem mergeItems_scenario_literal_empty :
    mergeItems [({ id := some "t1", due := some "2025-10-20" }, "l0")]
      [{ id := some "e1",
         start := some { dateTime := some "2025-10-20T21:00:00Z" },
         extPropIsTask := some "true" }]
      = Except.ok [] := by decide

/-- C3 amended: a task-tagged event converts to type task and carries the
timed start as its due instant, a plain task converts to type task with
no due instant, and the stated scenario holds once the records carry the
titles the merge guards require: the merge yields exactly the two task
items, both dated 2025-10-20, the event item with a due instant and the
task item without one. -/
theorem taggedEvent_task_mapping (e : CalendarEvent) (u : UnifiedItem)
    (htag : e.extPropIsTask = some "true")
    (hok : calendarEventToUnified e = Except.ok u) :
    (u.type = ItemType.task ∧ u.dueDateTime = e.start.bind (·.dateTime))
    ∧ (∀ (t : SchemaTask) (lid : String),
        (taskToUnified t lid).type = ItemType.task
        ∧ (taskToUnified t lid).dueDateTime = none)
    ∧ mergeItems
        [({ id := some "t1", title := some "T", due := some "2025-10-20" }, "l1")]
        [{ id := some "e1", summary := some "E",
           start := some { dateTime := some "2025-10-20T21:00:00Z" },
           extPropIsTask := some "true" }]
      = Except.ok
          [{ id := "t1", type := ItemType.task, title := "T",
             dueDate := "2025-10-20", completed := some false,
             sourceTaskListId := some "l1" },
           { id := "e1", type := ItemType.task, title := "E",
             dueDate := "2025-10-20",
             dueDateTime := some "2025-10-20T21:00:00Z",
             isAllDay := some false,
             sourceCalendarId := some "primary" }] := by
  refine ⟨?_, fun t lid => ⟨rfl, rfl⟩, by decide⟩
  cases he : e.id with
  | none =>
    unfold calendarEventToUnified at hok
    rw [he] at hok
    exact Except.noConfusion hok
  | some i =>
    by_cases hi : i = ""
    · unfold calendarEventToUnified at hok
      rw [he] at hok
      simp [hi] at hok
    · rw [calendarEventToUnified_eq he hi] at hok
      have hu := Except.ok.inj hok
      rw [← hu]
      simp [htag]

/-- Closed instance of the tagged-event mapping at the scenario event:
the conversion succeeds and the converted item has type task, keeps the
timed start and is dated 2025-10-20. -/
theorem taggedEvent_task_mapping_check :
    calendarEventToUnified
        { id := some "e1", summary := some "E",
          start := some { dateTime := some "2025-10-20T21:00:00Z" },
          extPropIsTask := some "true" }
      = Except.ok
          { id := "e1", type := ItemType.task, title := "E",
            dueDate := "2025-10-20",
            dueDateTime := some "2025-10-20T21:00:00Z",
            isAllDay := some false,
            sourceCalendarId := some "primary" }
    ∧ ({ id := "e1", type := ItemType.task, title := "E",
         dueDate := "2025-10-20",
         dueDateTime := some "2025-10-20T21:00:00Z",
         isAllDay := some false,
         sourceCalendarId := some "primary" } : UnifiedItem).type = ItemType.task := by
  refine ⟨by decide, ?_⟩
  exact (taggedEvent_task_mapping
    { id := some "e1", summary := some "E",
      start := some { dateTime := some "2025-10-20T21:00:00Z" },
      extPropIsTask := some "true" }
    { id := "e1", type := ItemType.task, title := "E",
      dueDate := "2025-10-20",
      dueDateTime := some "2025-10-20T21:00:00Z",
      isAllDay := some false,
      sourceCalendarId := some "primary" }
    (by decide) (by decide)).1.1

/-- C2: the output of the merge is sorted ascending by due date; on a
date tie every task item precedes every calendar item; and two items of
the same date and type that stand as a pair in the pre-sort array are
still a pair in the output, so encounter order is preserved within a
date and type. -/
theorem mergeItems_sort_contract (ts : List (SchemaTask × String))
    (es : List CalendarEvent) (base out : List UnifiedItem)
    (hbase : mergeBase ts es = Except.ok base)
    (hout : mergeItems ts es = Except.ok out) :
    List.Pairwise (fun a b : UnifiedItem => dateLE a.dueDate b.dueDate) out
    ∧ List.Pairwise (fun a b : UnifiedItem => a.dueDate = b.dueDate →
        ¬(a.type = ItemType.calendar ∧ b.type = ItemType.task)) out
    ∧ ∀ a b : UnifiedItem, a.dueDate = b.dueDate → a.type = b.type →
        List.Sublist [a, b] base → List.Sublist [a, b] out := by
  have hmi := mergeItems_eq hbase
  rw [hout] at hmi
  have hout2 := Except.ok.inj hmi
  haveI : IsTrans UnifiedItem itemLE := ⟨itemLE_trans⟩
  haveI : IsTotal UnifiedItem itemLE := ⟨itemLE_total⟩
  have hsorted : List.Pairwise itemLE out := by
    rw [hout2]
    exact List.sorted_insertionSort itemLE base
  refine ⟨?_, ?_, ?_⟩
  · refine hsorted.imp ?_
    intro a b hab
    rcases cmpItems_le_iff.mp hab with h | ⟨hd, _⟩
    · unfold dateLE localeCompare
      rw [h]
      decide
    · unfold dateLE localeCompare
      rw [hd, lexCompareChars_eq_iff.mpr rfl]
  · refine hsorted.imp ?_
    intro a b hab hd
    rintro ⟨hca, hcb⟩
    rcases cmpItems_le_iff.mp hab with h | ⟨_, hr⟩
    · rw [hd, lexCompareChars_eq_iff.mpr rfl] at h
      exact Ordering.noConfusion h
    · rw [hca, hcb] at hr
      simp [typeRank] at hr
  · intro a b hd ht hsub
    rw [hout2]
    exact List.pair_sublist_insertionSort
      (show itemLE a b from (cmpItems_eq_zero hd ht).le) hsub

/-- Closed instance of the sort contract at a concrete pair of input
lists whose merge mixes two dates and both item types. -/
theorem mergeItems_sort_contract_check :
    mergeBase
        [({ id := some "tA", title := some "A", due := some "2025-10-20" }, "l1"),
         ({ id := some "tB", title := some "B", due := some "2025-10-19" }, "l1")]
        [{ id := some "e1", summary := some "E",
           start := some { date := some "2025-10-19" } }]
      = Except.ok
          [{ id := "tA", type := ItemType.task, title := "A",
             dueDate := "2025-10-20", completed := some false,
             sourceTaskListId := some "l1" },
           { id := "tB", type := ItemType.task, title := "B",
             dueDate := "2025-10-19", completed := some false,
             sourceTaskListId := some "l1" },
           { id := "e1", type := ItemType.calendar, title := "E",
             dueDate := "2025-10-19", isAllDay := some true,
             sourceCalendarId := some "primary" }]
    ∧ mergeItems
        [({ id := some "tA", title := some "A", due := some "2025-10-20" }, "l1"),
         ({ id := some "tB", title := some "B", due := some "2025-10-19" }, "l1")]
        [{ id := some "e1", summary := some "E",
           start := some { date := some "2025-10-19" } }]
      = Except.ok
          [{ id := "tB", type := ItemType.task, title := "B",
             dueDate := "2025-10-19", completed := some false,
             sourceTaskListId := some "l1" },
           { id := "e1", type := ItemType.calendar, title := "E",
             dueDate := "2025-10-19", isAllDay := some true,
             sourceCalendarId := some "primary" },
           { id := "tA", type := ItemType.task, title := "A",
             dueDate := "2025-10-20", completed := some false,
             sourceTaskListId := some "l1" }]
    ∧ List.Pairwise (fun a b : UnifiedItem => dateLE a.dueDate b.dueDate)
        [{ id := "tB", type := ItemType.task, title := "B",
           dueDate := "2025-10-19", completed := some false,
           sourceTaskListId := some "l1" },
         { id := "e1", type := ItemType.calendar, title := "E",
           dueDate := "2025-10-19", isAllDay := some true,
           sourceCalendarId := some "primary" },
         { id := "tA", type := ItemType.task, title := "A",
           dueDate := "2025-10-20", completed := some false,
           sourceTaskListId := some "l1" }] := by
  refine ⟨by decide, by decide, ?_⟩
  exact (mergeItems_sort_contract
    [({ id := some "tA", title := some "A", due := some "2025-10-20" }, "l1"),
     ({ id := some "tB", title := some "B", due := some "2025-10-19" }, "l1")]
    [{ id := some "e1", summary := some "E",
       start := some { date := some "2025-10-19" } }]
    [{ id := "tA", type := ItemType.task, title := "A",
       dueDate := "2025-10-20", completed := some false,
       sourceTaskListId := some "l1" },
     { id := "tB", type := ItemType.task, title := "B",
       dueDate := "2025-10-19", completed := some false,
       sourceTaskListId := some "l1" },
     { id := "e1", type := ItemType.calendar, title := "E",
       dueDate := "2025-10-19", isAllDay := some true,
       sourceCalendarId := some "primary" }]
    [{ id := "tB", type := ItemType.task, title := "B",
       dueDate := "2025-10-19", completed := some false,
       sourceTaskListId := some "l1" },
     { id := "e1", type := ItemType.calendar, title := "E",
       dueDate := "2025-10-19", isAllDay := some true,
       sourceCalendarId := some "primary" },
     { id := "tA", type := ItemType.task, title := "A",
       dueDate := "2025-10-20", completed := some false,
       sourceTaskListId := some "l1" }]
    (by decide) (by decide)).1

/-- Linearity of the Date constructor in the day argument. -/
theorem jsMakeDay_day_shift (y m0 d k : Int) :
    jsMakeDay y m0 (d + k) = jsMakeDay y m0 d + k := by
  simp only [jsMakeDay, daysFromCivil]
  ring

/-- Ceiling division of an exact multiple. -/
theorem jsCeilDiv_mul {b : Int} (k : Int) (hb : b ≠ 0) :
    jsCeilDiv (k * b) b = k := by
  unfold jsCeilDiv
  rw [show -(k * b) = (-k) * b by ring, Int.mul_fdiv_cancel _ hb]
  ring

/-- C7: the display label of a due date compares the parsed date to local
today at midnight. An equal day gives the bare relative word Today, one
day ahead gives Tomorrow, one day behind gives Yesterday, each with no
day-count suffix; any other day gives the short month-day label plus
exactly one signed day-count suffix; and the recurrence tail is appended
exactly when a recurrence is supplied, in every branch. -/
theorem formatDueDate_relative_contract (today : JsToday) (s : String)
    (recurring : Option String) (y m d : Int)
    (hne : s ≠ "")
    (hy : ((splitOnChar '-' (s.data.takeWhile (· ≠ 'T'))).get? 0).bind jsParseInt
        = some y)
    (hm : ((splitOnChar '-' (s.data.takeWhile (· ≠ 'T'))).get? 1).bind jsParseInt
        = some m)
    (hd : ((splitOnChar '-' (s.data.takeWhile (· ≠ 'T'))).get? 2).bind jsParseInt
        = some d) :
    (jsMakeDay y (m - 1) d = jsMakeDay today.year today.month0 today.day →
      formatDueDate today (some s) recurring
        = "📅 Today" ++ recurrenceSuffix recurring)
    ∧ (jsMakeDay y (m - 1) d = jsMakeDay today.year today.month0 today.day + 1 →
      formatDueDate today (some s) recurring
        = "📅 Tomorrow" ++ recurrenceSuffix recurring)
    ∧ (jsMakeDay y (m - 1) d = jsMakeDay today.year today.month0 today.day - 1 →
      formatDueDate today (some s) recurring
        = "📅 Yesterday" ++ recurrenceSuffix recurring)
    ∧ (jsMakeDay today.year today.month0 today.day + 1 < jsMakeDay y (m - 1) d →
      formatDueDate today (some s) recurring
        = "📅 " ++ jsMonthDayLabel (jsMakeDay y (m - 1) d)
          ++ " (" ++ toString (jsMakeDay y (m - 1) d
              - jsMakeDay today.year today.month0 today.day) ++ "d from now)"
          ++ recurrenceSuffix recurring)
    ∧ (jsMakeDay y (m - 1) d < jsMakeDay today.year today.month0 today.day - 1 →
      formatDueDate today (some s) recurring
        = "📅 " ++ jsMonthDayLabel (jsMakeDay y (m - 1) d)
          ++ " (" ++ toString (jsMakeDay today.year today.month0 today.day
              - jsMakeDay y (m - 1) d).natAbs ++ "d ago)"
          ++ recurrenceSuffix recurring) := by
  have hst : strTruthy (some s) = true := by simp [strTruthy, hne]
  have hms : (msPerDay : Int) ≠ 0 := by decide
  have htom : jsMakeDay today.year today.month0 (today.day + 1)
      = jsMakeDay today.year today.month0 today.day + 1 :=
    jsMakeDay_day_shift today.year today.month0 today.day 1
  have hyest : jsMakeDay today.year today.month0 (today.day - 1)
      = jsMakeDay today.year today.month0 today.day - 1 := by
    have := jsMakeDay_day_shift today.year today.month0 today.day (-1)
    simpa using this
  refine ⟨?_, ?_, ?_, ?_, ?_⟩ <;> intro h <;>
    simp only [formatDueDate, hst, Bool.true_eq_false, if_false,
      Option.getD_some, hy, hm, hd, Option.map_some', htom, hyest,
      recurrenceSuffix]
  · rw [if_pos h]
  · rw [if_neg (by omega), if_pos h]
  · rw [if_neg (by omega), if_neg (by omega), if_pos h]
  · rw [if_neg (by omega), if_neg (by omega), if_neg (by omega),
      jsCeilDiv_mul _ hms, if_pos (by omega)]
    simp [String.append_assoc]
  · rw [if_neg (by omega), if_neg (by omega), if_neg (by omega),
      jsCeilDiv_mul _ hms, if_neg (by omega), if_pos (by omega)]
    have hab : (jsMakeDay y (m - 1) d
          - jsMakeDay today.year today.month0 today.day).natAbs
        = (jsMakeDay today.year today.month0 today.day
          - jsMakeDay y (m - 1) d).natAbs := by omega
    rw [hab]
    simp [String.append_assoc]

/-- Closed instance of the display-label contract: seen from local today
2025-10-20, the due date 2025-10-25 renders as the absolute label with
the five-day suffix, and the due date 2025-10-20 with a daily recurrence
renders as bare Today plus the recurrence tail. -/
theorem formatDueDate_relative_contract_check :
    formatDueDate ⟨2025, 9, 20⟩ (some "2025-10-25") none
      = "📅 Oct 25 (5d from now)"
    ∧ formatDueDate ⟨2025, 9, 20⟩ (some "2025-10-20") (some "daily")
      = "📅 Today [daily]" := by
  constructor
  · have h := (formatDueDate_relative_contract ⟨2025, 9, 20⟩ "2025-10-25" none
      2025 10 25 (by decide) (by decide) (by decide) (by decide)).2.2.2.1
      (by decide)
    exact h.trans (by decide)
  · have h := (formatDueDate_relative_contract ⟨2025, 9, 20⟩ "2025-10-20"
      (some "daily") 2025 10 20 (by decide) (by decide) (by decide)
      (by decide)).1 (by decide)
    exact h.trans (by decide)

/-- The fallback scan of `submitEditTask`, characterised: it patches the
truthy list ids in order up to and including the first id where the
patch succeeds, and reports updated exactly when some id succeeds and
the not-found warning otherwise. -/
theorem scanTaskLists_spec (patchOk : String → String → Bool) (taskId : String) :
    ∀ lists : List TaskList,
    (scanTaskLists patchOk taskId lists).1
      = ((truthyListIds lists).takeWhile (fun lid => !patchOk lid taskId)
          ++ ((truthyListIds lists).drop
              ((truthyListIds lists).takeWhile (fun lid => !patchOk lid taskId)).length).take 1).map
          (fun lid => FacadeCall.tasksPatch lid taskId)
    ∧ (scanTaskLists patchOk taskId lists).2
      = (if (truthyListIds lists).any (fun lid => patchOk lid taskId)
         then EditOutcome.updated else EditOutcome.notFoundWarning) := by
  intro lists
  induction lists with
  | nil => exact ⟨rfl, rfl⟩
  | cons l rest ih =>
    by_cases hid : strTruthy l.id = true
    · have hcons : truthyListIds (l :: rest) = l.id.getD "" :: truthyListIds rest := by
        unfold truthyListIds
        rw [List.filterMap_cons, if_pos hid]
      by_cases hp : patchOk (l.id.getD "") taskId = true
      · have htw : (truthyListIds (l :: rest)).takeWhile
            (fun lid => !patchOk lid taskId) = [] := by
          rw [hcons, List.takeWhile_cons]
          simp [hp]
        constructor
        · show (if strTruthy l.id then
              if patchOk (l.id.getD "") taskId then
                ([FacadeCall.tasksPatch (l.id.getD "") taskId], EditOutcome.updated)
              else
                (FacadeCall.tasksPatch (l.id.getD "") taskId ::
                  (scanTaskLists patchOk taskId rest).1,
                  (scanTaskLists patchOk taskId rest).2)
            else scanTaskLists patchOk taskId rest).1 = _
          rw [if_pos hid, if_pos hp, htw, hcons]
          simp
        · show (if strTruthy l.id then
              if patchOk (l.id.getD "") taskId then
                ([FacadeCall.tasksPatch (l.id.getD "") taskId], EditOutcome.updated)
              else
                (FacadeCall.tasksPatch (l.id.getD "") taskId ::
                  (scanTaskLists patchOk taskId rest).1,
                  (scanTaskLists patchOk taskId rest).2)
            else scanTaskLists patchOk taskId rest).2 = _
          rw [if_pos hid, if_pos hp, hcons, List.any_cons, hp]
          simp
      · have htw : (truthyListIds (l :: rest)).takeWhile
            (fun lid => !patchOk lid taskId)
              = l.id.getD "" :: (truthyListIds rest).takeWhile
                  (fun lid => !patchOk lid taskId) := by
          rw [hcons, List.takeWhile_cons]
          simp [hp]
        constructor
        · show (if strTruthy l.id then
              if patchOk (l.id.getD "") taskId then
                ([FacadeCall.tasksPatch (l.id.getD "") taskId], EditOutcome.updated)
              else
                (FacadeCall.tasksPatch (l.id.getD "") taskId ::
                  (scanTaskLists patchOk taskId rest).1,
                  (scanTaskLists patchOk taskId rest).2)
            else scanTaskLists patchOk taskId rest).1 = _
          rw [if_pos hid, if_neg hp, htw, hcons]
          simp only [List.length_cons, List.drop_succ_cons, List.cons_append,
            List.map_cons]
          rw [ih.1]
        · show (if strTruthy l.id then
              if patchOk (l.id.getD "") taskId then
                ([FacadeCall.tasksPatch (l.id.getD "") taskId], EditOutcome.updated)
              else
                (FacadeCall.tasksPatch (l.id.getD "") taskId ::
                  (scanTaskLists patchOk taskId rest).1,
                  (scanTaskLists patchOk taskId rest).2)
            else scanTaskLists patchOk taskId rest).2 = _
          rw [if_pos hid, if_neg hp, hcons, List.any_cons]
          simp only [hp]
          rw [ih.2]
          simp
    · have hcons : truthyListIds (l :: rest) = truthyListIds rest := by
        unfold truthyListIds
        rw [List.filterMap_cons, if_neg hid]
      constructor
      · show (if strTruthy l.id then
            if patchOk (l.id.getD "") taskId then
              ([FacadeCall.tasksPatch (l.id.getD "") taskId], EditOutcome.updated)
            else
              (FacadeCall.tasksPatch (l.id.getD "") taskId ::
                (scanTaskLists patchOk taskId rest).1,
                (scanTaskLists patchOk taskId rest).2)
          else scanTaskLists patchOk taskId rest).1 = _
        rw [if_neg hid, hcons, ih.1]
      · show (if strTruthy l.id then
            if patchOk (l.id.getD "") taskId then
              ([FacadeCall.tasksPatch (l.id.getD "") taskId], EditOutcome.updated)
            else
              (FacadeCall.tasksPatch (l.id.getD "") taskId ::
                (scanTaskLists patchOk taskId rest).1,
                (scanTaskLists patchOk taskId rest).2)
          else scanTaskLists patchOk taskId rest).2 = _
        rw [if_neg hid, hcons, ih.2]

/-- C9: an update-by-id first patches in the supplied list id and stops
there on success; on a failed first attempt it lists the task lists and
scans them linearly, patching each truthy list id and stopping at the
first success; the not-found warning is reported exactly when every
scanned list fails, i.e. only after all lists are exhausted. -/
theorem submitEditTask_fallback_contract (env : PanelEnv) (taskId : String)
    (fd : EventFormData) (suppliedId : String) (due : Int)
    (hprov : env.hasTaskProvider = true) (hserv : env.hasTaskService = true)
    (htitle : fd.title ≠ "")
    (hdue : utcMidnightParse (fd.date ++ "T00:00:00.000Z") = some due)
    (hsupp : suppliedId ≠ "") :
    (env.patchOk suppliedId taskId = true →
      submitEditTask env taskId fd (some suppliedId)
        = ([FacadeCall.tasksPatch suppliedId taskId], EditOutcome.updated))
    ∧ (env.patchOk suppliedId taskId = false →
      (submitEditTask env taskId fd (some suppliedId)).1
        = FacadeCall.tasksPatch suppliedId taskId :: FacadeCall.tasklistsList ::
            ((truthyListIds env.taskLists).takeWhile (fun lid => !env.patchOk lid taskId)
              ++ ((truthyListIds env.taskLists).drop
                  ((truthyListIds env.taskLists).takeWhile
                    (fun lid => !env.patchOk lid taskId)).length).take 1).map
              (fun lid => FacadeCall.tasksPatch lid taskId)
      ∧ (submitEditTask env taskId fd (some suppliedId)).2
          = (if (truthyListIds env.taskLists).any (fun lid => env.patchOk lid taskId)
             then EditOutcome.updated else EditOutcome.notFoundWarning)) := by
  have hguard : ¬ (env.hasTaskProvider = false ∨ env.hasTaskService = false ∨
      fd.title = "") := by
    simp [hprov, hserv, htitle]
  have hstr : strTruthy (some suppliedId) = true := by simp [strTruthy, hsupp]
  constructor
  · intro hp
    unfold submitEditTask
    rw [if_neg hguard, hdue]
    simp [hstr, hp]
  · intro hp
    unfold submitEditTask
    rw [if_neg hguard, hdue]
    simp only [Option.getD_some, hstr, hp, Bool.true_eq_false,
      Bool.false_eq_true, and_false, if_false, if_true, true_and,
      List.cons_append, List.nil_append, List.singleton_append]
    exact ⟨by rw [(scanTaskLists_spec env.patchOk taskId env.taskLists).1],
      by rw [(scanTaskLists_spec env.patchOk taskId env.taskLists).2]⟩

/-- Closed instance of the fallback contract: the supplied list fails,
the scan then patches l1 (failing) and stops at l2 (succeeding) without
touching l3, and the outcome is updated. -/
theorem submitEditTask_fallback_check :
    submitEditTask
        { taskLists := [{ id := some "l1" }, { id := some "l2" }, { id := some "l3" }],
          patchOk := fun lid _ => lid = "l2" }
        "t9" { title := "T", date := "2025-10-20", time := "09:00", isAllDay := true }
        (some "l0")
      = ([FacadeCall.tasksPatch "l0" "t9", FacadeCall.tasklistsList,
          FacadeCall.tasksPatch "l1" "t9", FacadeCall.tasksPatch "l2" "t9"],
         EditOutcome.updated) := by
  have h := (submitEditTask_fallback_contract
    { taskLists := [{ id := some "l1" }, { id := some "l2" }, { id := some "l3" }],
      patchOk := fun lid _ => lid = "l2" }
    "t9" { title := "T", date := "2025-10-20", time := "09:00", isAllDay := true }
    "l0" (utcMidnightInstant 20381)
    (by decide) (by decide) (by decide) (by decide) (by decide)).2 (by decide)
  have h1 := h.1
  have h2 := h.2
  have hp : (submitEditTask
      { taskLists := [{ id := some "l1" }, { id := some "l2" }, { id := some "l3" }],
        patchOk := fun lid _ => lid = "l2" }
      "t9" { title := "T", date := "2025-10-20", time := "09:00", isAllDay := true }
      (some "l0"))
      = ((submitEditTask
      { taskLists := [{ id := some "l1" }, { id := some "l2" }, { id := some "l3" }],
        patchOk := fun lid _ => lid = "l2" }
      "t9" { title := "T", date := "2025-10-20", time := "09:00", isAllDay := true }
      (some "l0")).1, (submitEditTask
      { taskLists := [{ id := some "l1" }, { id := some "l2" }, { id := some "l3" }],
        patchOk := fun lid _ => lid = "l2" }
      "t9" { title := "T", date := "2025-10-20", time := "09:00", isAllDay := true }
      (some "l0")).2) := rfl
  rw [hp, h1, h2]
  decide

/-- C4 counterexample: the handler has no in-flight guard. Delivering a
valid create-task submit puts one mutation in flight; delivering a
second identical submit while the first is still in flight issues a
second facade mutation instead of rejecting the message. -/
theorem submitForm_inflight_second_call :
    (arriveMessage { taskLists := [{ id := some "l1" }] } {}
        (PanelMsg.submitEventForm (some "create") none (some ItemType.task)
          (some { title := "T", date := "2025-10-20", time := "09:00",
                  isAllDay := true }) none)).inFlight = 1
    ∧ (arriveMessage { taskLists := [{ id := some "l1" }] }
        (arriveMessage { taskLists := [{ id := some "l1" }] } {}
          (PanelMsg.submitEventForm (some "create") none (some ItemType.task)
            (some { title := "T", date := "2025-10-20", time := "09:00",
                    isAllDay := true }) none))
        (PanelMsg.submitEventForm (some "create") none (some ItemType.task)
          (some { title := "T", date := "2025-10-20", time := "09:00",
                  isAllDay := true }) none)).log.countP isMutation = 2 := by
  exact ⟨by decide, by decide⟩

/-- C4 amended: the source keeps no submitting flag, so a submit message
that arrives while an earlier remote mutation is still in flight is
handled exactly like any other: the handler runs, issues its own list
and insert calls, and a further mutation goes in flight. -/
theorem submitForm_no_inflight_guard (env : PanelEnv) (w : PanelWorld)
    (fd : EventFormData) (tlid : Option String) (l0 : TaskList)
    (rest : List TaskList) (due : Int)
    (hflight : 1 ≤ w.inFlight)
    (hprov : env.hasTaskProvider = true)
    (hserv : env.hasTaskService = true)
    (htitle : fd.title ≠ "")
    (hdue : (if fd.isAllDay then submitCreateTaskAllDayDue fd.date
             else jsParseLocalDateTime env.tz fd.date fd.time) = some due)
    (hlists : env.taskLists = l0 :: rest) :
    (arriveMessage env w
        (PanelMsg.submitEventForm (some "create") none (some ItemType.task)
          (some fd) tlid)).log
      = w.log ++ [FacadeCall.tasklistsList, FacadeCall.tasksInsert l0.id fd.title due]
    ∧ (arriveMessage env w
        (PanelMsg.submitEventForm (some "create") none (some ItemType.task)
          (some fd) tlid)).inFlight = w.inFlight + 1 := by
  have hcalls : submitCreateTaskFromForm env fd
      = [FacadeCall.tasklistsList, FacadeCall.tasksInsert l0.id fd.title due] := by
    unfold submitCreateTaskFromForm
    rw [if_neg (by simp [hprov, htitle]), hdue]
    show (if env.hasTaskService = false then []
      else FacadeCall.tasklistsList ::
        match env.taskLists with
        | [] => []
        | l0 :: _ => [FacadeCall.tasksInsert l0.id fd.title due]) = _
    rw [if_neg (by simp [hserv]), hlists]
  have hmsg : handleMessage env w.st
      (PanelMsg.submitEventForm (some "create") none (some ItemType.task)
        (some fd) tlid)
      = (⟨none, none, none, none⟩, submitCreateTaskFromForm env fd) := rfl
  constructor
  · unfold arriveMessage
    rw [hmsg, hcalls]
  · unfold arriveMessage
    rw [hmsg, hcalls]
    simp [isMutation]

/-- Closed instance of the missing-guard contract at a world with one
mutation in flight. -/
theorem submitForm_no_inflight_guard_check :
    (arriveMessage { taskLists := [{ id := some "l1" }] }
        { inFlight := 1, log := [FacadeCall.tasksInsert (some "l1") "T" 29348640] }
        (PanelMsg.submitEventForm (some "create") none (some ItemType.task)
          (some { title := "U", date := "2025-10-21", time := "09:00",
                  isAllDay := true }) none)).log
      = [FacadeCall.tasksInsert (some "l1") "T" 29348640,
         FacadeCall.tasklistsList,
         FacadeCall.tasksInsert (some "l1") "U" (utcMidnightInstant 20382)] := by
  have h := (submitForm_no_inflight_guard { taskLists := [{ id := some "l1" }] }
    { inFlight := 1, log := [FacadeCall.tasksInsert (some "l1") "T" 29348640] }
    { title := "U", date := "2025-10-21", time := "09:00", isAllDay := true }
    none { id := some "l1" } [] (utcMidnightInstant 20382)
    (by decide) (by decide) (by decide) (by decide) (by decide) (by decide)).1
  exact h.trans (by decide)

/-- C5 scenario A helper. -/
theorem clickMachine_scenarioA (g : String) (t0 d : Int) (hg : g ≠ "")
    (ht : 300 ≤ t0) (hd0 : 0 ≤ d) (hd : d < 300) :
    (runPresses [(g, t0), (g, t0 + d)]).out = [UiEvent.requestCreate g] := by
  have f1 : ¬ (0 < t0 - 0 ∧ t0 - 0 < DOUBLE_CLICK_DELAY) := by
    unfold DOUBLE_CLICK_DELAY; omega
  have f2 : ¬ (t0 + DOUBLE_CLICK_DELAY ≤ t0 + d) := by
    unfold DOUBLE_CLICK_DELAY; omega
  have f4 : d < DOUBLE_CLICK_DELAY := by
    unfold DOUBLE_CLICK_DELAY; omega
  by_cases hdpos : 0 < d
  · simp only [runPresses, List.foldl, pressStep, fireDue, clickHandler,
      dblclickHandler, flushTimers, fireTimerCallback, cancelPending,
      initClickState, List.filter_nil, List.foldl_nil, List.filter_cons,
      f1, f2, f4, hg, hdpos, if_false, if_true, ne_eq,
      decide_eq_true_eq]
    simp [f1, f2, f4, hg, hdpos]
  · have hdz : d = 0 := by omega
    subst hdz
    simp only [runPresses, List.foldl, pressStep, fireDue, clickHandler,
      dblclickHandler, flushTimers, fireTimerCallback, cancelPending,
      initClickState, List.filter_nil, List.foldl_nil, List.filter_cons,
      f1, f2, f4, hg, if_false, if_true, ne_eq, decide_eq_true_eq]
    simp [f1, f2, f4, hg]

/-- C5 scenario B helper. -/
theorem clickMachine_scenarioB (g g2 : String) (t0 t1 : Int) (hne : g ≠ g2)
    (hg : g ≠ "") (hg2 : g2 ≠ "") (ht : 300 ≤ t0) (h01 : t0 ≤ t1) :
    (runPresses [(g, t0), (g2, t1)]).out
      = [UiEvent.selectDate g, UiEvent.selectDate g2] := by
  have f1 : ¬ (0 < t0 - 0 ∧ t0 - 0 < DOUBLE_CLICK_DELAY) := by
    unfold DOUBLE_CLICK_DELAY; omega
  have f2 : ¬ (0 < t1 - 0 ∧ t1 - 0 < DOUBLE_CLICK_DELAY) := by
    unfold DOUBLE_CLICK_DELAY; omega
  have f1b : ¬ (0 < t0 ∧ t0 < DOUBLE_CLICK_DELAY) := by
    unfold DOUBLE_CLICK_DELAY; omega
  have f2b : ¬ (0 < t1 ∧ t1 < DOUBLE_CLICK_DELAY) := by
    unfold DOUBLE_CLICK_DELAY; omega
  have hne2 : g2 ≠ g := fun h => hne h.symm
  by_cases hfire : t0 + DOUBLE_CLICK_DELAY ≤ t1
  · simp only [runPresses, List.foldl, pressStep, fireDue, clickHandler,
      dblclickHandler, flushTimers, fireTimerCallback, cancelPending,
      initClickState, List.filter_nil, List.foldl_nil, List.filter_cons,
      f1, f2, f1b, f2b, hg, hg2, hne, hne2, hfire, if_false, if_true, ne_eq,
      decide_eq_true_eq]
    simp [f1, f2, f1b, f2b, hg, hg2, hne, hne2, hfire]
  · simp only [runPresses, List.foldl, pressStep, fireDue, clickHandler,
      dblclickHandler, flushTimers, fireTimerCallback, cancelPending,
      initClickState, List.filter_nil, List.foldl_nil, List.filter_cons,
      f1, f2, f1b, f2b, hg, hg2, hne, hne2, hfire, if_false, if_true, ne_eq,
      decide_eq_true_eq]
    simp [f1, f2, f1b, f2b, hg, hg2, hne, hne2, hfire]

/-- C5: two presses on the same day target within the debounce window
produce exactly one create-form activation and no selection transition,
because the double-click event of the second press cancels the pending
per-target timer; and presses on two different targets do not interfere:
each schedules its own per-target timer and each firing performs its own
selection. -/
theorem clickMachine_disambiguation :
    (∀ (g : String) (t0 d : Int), g ≠ "" → 300 ≤ t0 → 0 ≤ d → d < 300 →
      (runPresses [(g, t0), (g, t0 + d)]).out = [UiEvent.requestCreate g])
    ∧ (∀ (g g2 : String) (t0 t1 : Int), g ≠ g2 → g ≠ "" → g2 ≠ "" →
      300 ≤ t0 → t0 ≤ t1 →
      (runPresses [(g, t0), (g2, t1)]).out
        = [UiEvent.selectDate g, UiEvent.selectDate g2]) :=
  ⟨clickMachine_scenarioA, clickMachine_scenarioB⟩

/-- Closed instance of the click disambiguation at concrete targets and
press times: a double press on one day, and single presses on two
different days. -/
theorem clickMachine_disambiguation_check :
    (runPresses [("2025-10-20", 1000), ("2025-10-20", 1100)]).out
      = [UiEvent.requestCreate "2025-10-20"]
    ∧ (runPresses [("2025-10-20", 1000), ("2025-10-21", 1100)]).out
      = [UiEvent.selectDate "2025-10-20", UiEvent.selectDate "2025-10-21"] := by
  constructor
  · have h := clickMachine_disambiguation.1 "2025-10-20" 1000 100
      (by decide) (by decide) (by decide) (by decide)
    exact h
  · exact clickMachine_disambiguation.2 "2025-10-20" "2025-10-21" 1000 1100
      (by decide) (by decide) (by decide) (by decide) (by decide)

end GTasks
